import Mathlib

/-!
Shallow embedding of `src/app.py` (vrn-new-era): a Flask service with two
endpoints, `GET /health` and `POST /api/managers`.  JSON values, Python dict
semantics (insertion order, overwrite on existing key), the API-key decorator,
the agents-validation decorator, and the response shaping of `get_managers`
are modelled directly from the source.  The database call
(`cur.execute` / `fetchall`) is an external effect: its outcome is an input
of the model (`DbOutcome`), either the fetched rows or a raised error.
-/

/-- JSON values, as produced by `request.get_json()`.  Numbers are modelled as
integers (no claim touches fractional numbers); objects keep insertion order,
matching Python dicts and `JSON_SORT_KEYS = False`. -/
inductive Json where
  | null : Json
  | bool (b : Bool) : Json
  | num (n : Int) : Json
  | str (s : String) : Json
  | arr (items : List Json) : Json
  | obj (fields : List (String × Json)) : Json

/-- Python truthiness (`not data` in line 62 of app.py): `None`, `False`, `0`,
`""`, `[]` and `{}` are falsy, everything else truthy. -/
def pyTruthy : Json → Bool
  | Json.null => false
  | Json.bool b => b
  | Json.num n => n != 0
  | Json.str s => s != ""
  | Json.arr items => !items.isEmpty
  | Json.obj fields => !fields.isEmpty

/-- Python `x == key` where `key` is a string: equality holds only when `x`
itself is that string (comparing a string with a non-string is `False`). -/
def jsonEqStr (j : Json) (key : String) : Bool :=
  match j with
  | Json.str s => s == key
  | _ => false

/-- Whether `pat` occurs as a substring of `s` (Python `key in some_string`). -/
def strContains (s pat : String) : Bool :=
  (List.range (s.data.length + 1)).any (fun i => pat.data.isPrefixOf (s.data.drop i))

/-- Python `key in data` (line 62): membership test on dicts (keys), lists
(elements) and strings (substring); a `TypeError` (modelled as `none`) on the
remaining types. -/
def pyContains (key : String) : Json → Option Bool
  | Json.obj fields => some (fields.any (fun p => p.1 == key))
  | Json.arr items => some (items.any (fun j => jsonEqStr j key))
  | Json.str s => some (strContains s key)
  | _ => none

/-- Python `data[key]` with a string key (line 64): a dict lookup; a
`TypeError` (modelled as `none`) on every other type, and a `KeyError`
(also `none`) when the key is absent. -/
def pyGetItem (key : String) : Json → Option Json
  | Json.obj fields => (fields.find? (fun p => p.1 == key)).map (fun p => p.2)
  | _ => none

/-- Whether a JSON value is a string (`isinstance(agent, str)`, line 69). -/
def Json.isStr : Json → Bool
  | Json.str _ => true
  | _ => false

/-- The string payload of a JSON string, if any. -/
def Json.asStr : Json → Option String
  | Json.str s => some s
  | _ => none

/-- Python `agent.strip()` (line 71): the string with leading and trailing
whitespace removed.  Implemented by structural recursion on the character
list so that concrete instances evaluate. -/
def pyStrip (s : String) : String :=
  String.mk (((s.data.dropWhile Char.isWhitespace).reverse.dropWhile Char.isWhitespace).reverse)

/-- An HTTP response: status code and JSON body (`jsonify(...)`). -/
structure Resp where
  status : Nat
  body : Json

/-- `jsonify({"error": msg}), 400` as used throughout the validator. -/
def badRequest (msg : String) : Resp :=
  ⟨400, Json.obj [("error", Json.str msg)]⟩

/-- The incoming HTTP request, as the handler sees it: the `X-API-Key` header
(absent = `none`), `request.is_json`, and the parsed body
`request.get_json()`. -/
structure Request where
  apiKey : Option String
  isJson : Bool
  body : Json

/-- Python dict assignment `d[k] = v`: overwrite in place when the key exists,
append otherwise (insertion order is preserved, Python 3.7+ semantics). -/
def dictSet (d : List (String × α)) (k : String) (v : α) : List (String × α) :=
  if d.any (fun p => p.1 == k) then
    d.map (fun p => if p.1 == k then (k, v) else p)
  else d ++ [(k, v)]

/-- Python dict lookup `d.get(k)` / `d[k]`: the value at the first (unique)
occurrence of the key. -/
def dictGet (d : List (String × α)) (k : String) : Option α :=
  (d.find? (fun p => p.1 == k)).map (fun p => p.2)

/-- The keys of a modelled dict, in insertion order. -/
def dictKeys (d : List (String × α)) : List String :=
  d.map (fun p => p.1)

/-- Python `set.add`: insert unless already present (the model keeps insertion
order; only the underlying set of elements matters, rendering sorts). -/
def setAdd (s : List String) (m : String) : List String :=
  if m ∈ s then s else s ++ [m]

/-- `require_api_key` (lines 43-52): `401 Unauthorized` when the header is
absent, empty (Python `not api_key`) or not among the configured keys;
otherwise fall through to the wrapped function (`none`). -/
def require_api_key (api_keys : List String) (apiKey : Option String) : Option Resp :=
  match apiKey with
  | none => some ⟨401, Json.obj [("error", Json.str "Unauthorized")]⟩
  | some k =>
    if k == "" || !(api_keys.contains k) then
      some ⟨401, Json.obj [("error", Json.str "Unauthorized")]⟩
    else none

/-- Outcome of `validate_agents_decorator`: an early error response, a raised
Python exception escaping the decorator (e.g. `TypeError` from `in` or
subscripting on a non-dict body), or fall-through with the validated agent
list. -/
inductive VResult where
  | fail (r : Resp) : VResult
  | raise : VResult
  | pass (agents : List String) : VResult

/-- `validate_agents_decorator(max_agents, allow_empty)` (lines 54-75): the
body checks, in source order, each short-circuiting with its own 400. -/
def validate_agents (max_agents : Nat) (allow_empty : Bool)
    (isJson : Bool) (body : Json) : VResult :=
  if !isJson then
    VResult.fail (badRequest "Content-Type must be application/json")
  else if !(pyTruthy body) then
    VResult.fail (badRequest "Missing \'agents\' in request body")
  else
    match pyContains "agents" body with
    | none => VResult.raise
    | some false => VResult.fail (badRequest "Missing \'agents\' in request body")
    | some true =>
      match pyGetItem "agents" body with
      | none => VResult.raise
      | some agentsJson =>
        match agentsJson with
        | Json.arr items =>
          if items.length > max_agents then
            VResult.fail (badRequest ("Too many agents, maximum " ++ toString max_agents))
          else if !(items.all Json.isStr) then
            VResult.fail (badRequest "All agents must be strings")
          else
            let agents := items.filterMap Json.asStr
            if !allow_empty && agents.any (fun a => pyStrip a == "") then
              VResult.fail (badRequest "Agent names cannot be empty")
            else VResult.pass agents
        | _ => VResult.fail (badRequest "Agents must be a list")

/-- One row of the query result (`RealDictCursor` dict with keys `agent`,
`manager`); `manager` is `NULL` (`none`) when the left joins found none. -/
structure Row where
  agent : String
  manager : Option String

/-- Outcome of the database block (lines 117-120): the fetched rows, a raised
`psycopg2.Error`, or any other exception raised inside the `try`. -/
inductive DbOutcome where
  | ok (rows : List Row) : DbOutcome
  | dbErr : DbOutcome
  | otherErr : DbOutcome

/-- `{agent: None for agent in agents}` (line 122): dict comprehension in list
order; a duplicate agent just overwrites its own `None`. -/
def initResponse (agents : List String) : List (String × Json) :=
  agents.foldl (fun d a => dictSet d a Json.null) []

/-- One iteration of the loop of lines 125-132: skip a falsy manager value
(`NULL` or the empty string), otherwise start the agent\'s set when absent and
add the manager to it. -/
def collectStep (am : List (String × List String)) (row : Row) :
    List (String × List String) :=
  match row.manager with
  | some m =>
    if m != "" then
      match dictGet am row.agent with
      | none => dictSet am row.agent (setAdd [] m)
      | some s => dictSet am row.agent (setAdd s m)
    else am
  | none => am

/-- The loop of lines 125-132: group truthy manager values by agent into sets
(`if manager:` skips `NULL` and empty-string managers). -/
def collectManagers (rows : List Row) : List (String × List String) :=
  rows.foldl collectStep []

/-- String comparison as Python `sorted` uses it: lexicographic by code
point. -/
def strLe (a b : String) : Prop :=
  a.data ≤ b.data

instance : DecidableRel strLe :=
  fun a b => inferInstanceAs (Decidable (a.data ≤ b.data))

/-- `", ".join(sorted(managers_set))` (line 137). -/
def joinSorted (ms : List String) : String :=
  String.intercalate ", " (List.insertionSort strLe ms)

/-- One iteration of the overlay loop of lines 135-137: `if managers_set:`
skips an empty set, otherwise the agent\'s entry becomes the comma-joined
sorted managers. -/
def overlayStep (d : List (String × Json)) (p : String × List String) :
    List (String × Json) :=
  if p.2.isEmpty then d else dictSet d p.1 (Json.str (joinSorted p.2))

/-- The overlay loop of lines 135-137: write the comma-joined sorted managers
over the `None` defaults. -/
def overlayManagers (rd : List (String × Json)) (am : List (String × List String)) :
    List (String × Json) :=
  am.foldl overlayStep rd

/-- The body of `get_managers` (lines 91-147) after the decorators have let
the request through, given the validated agent list and the database
outcome. -/
def get_managers (agents : List String) (db : DbOutcome) : Resp :=
  match db with
  | DbOutcome.ok rows =>
    let response_data := initResponse agents
    let agent_managers := collectManagers rows
    ⟨200, Json.obj [("managers", Json.obj (overlayManagers response_data agent_managers))]⟩
  | DbOutcome.dbErr => ⟨500, Json.obj [("error", Json.str "Database error")]⟩
  | DbOutcome.otherErr => ⟨500, Json.obj [("error", Json.str "Internal server error")]⟩

/-- `POST /api/managers` (lines 88-147): `@require_api_key` runs first, then
`@validate_agents_decorator(max_agents=300, allow_empty=False)`, then the
handler body.  An exception escaping the decorators lands in Flask\'s 500
handler (lines 160-162). -/
def api_managers (api_keys : List String) (req : Request) (db : DbOutcome) : Resp :=
  match require_api_key api_keys req.apiKey with
  | some r => r
  | none =>
    match validate_agents 300 false req.isJson req.body with
    | VResult.fail r => r
    | VResult.raise => ⟨500, Json.obj [("error", Json.str "Internal server error")]⟩
    | VResult.pass agents => get_managers agents db

/-- Lines 101-103: `['%s'] * agent_count`, comma-joined into the text spliced
into the query\'s `IN (...)` clause; empty exactly when the agent list is. -/
def placeholders (agents : List String) : String :=
  String.intercalate ", " (List.replicate agents.length "%s")

/-- The query execution of lines 101-120 with its construction made explicit:
with no agents the placeholder text is empty (lines 101-103), the built SQL
ends in `IN ()` (line 114), which PostgreSQL rejects as a syntax error, so
`cur.execute` raises `psycopg2.Error` whatever the database holds; with at
least one agent the outcome is whatever the database answers. -/
def runQuery (agents : List String) (db : DbOutcome) : DbOutcome :=
  if agents.isEmpty then DbOutcome.dbErr else db

/-- `POST /api/managers` as `api_managers`, but routing the database outcome
through the query construction (`runQuery`): the response the program can
actually produce, including the empty-`IN`-list failure. -/
def api_managers_db (api_keys : List String) (req : Request) (db : DbOutcome) : Resp :=
  match require_api_key api_keys req.apiKey with
  | some r => r
  | none =>
    match validate_agents 300 false req.isJson req.body with
    | VResult.fail r => r
    | VResult.raise => ⟨500, Json.obj [("error", Json.str "Internal server error")]⟩
    | VResult.pass agents => get_managers agents (runQuery agents db)

/-- `GET /health` (lines 80-86), with `datetime.now().isoformat()` abstracted
as the input timestamp.  The `try` body is a pure `jsonify` of two strings and
cannot raise, so the `except` branch of the source has no reachable
counterpart. -/
def health_check (ts : String) : Resp :=
  ⟨200, Json.obj [("status", Json.str "healthy"), ("timestamp", Json.str ts)]⟩

/-- The managers mapping of a success response, when the response has one. -/
def respManagers (r : Resp) : Option (List (String × Json)) :=
  match r.body with
  | Json.obj [("managers", Json.obj m)] => some m
  | _ => none

/-! ### Lemmas about the Python-dict model -/

theorem mem_dictKeys_iff_any {α : Type} (d : List (String × α)) (k : String) :
    k ∈ dictKeys d ↔ d.any (fun p => p.1 == k) = true := by
  rw [dictKeys, List.mem_map, List.any_eq_true]
  constructor
  · rintro ⟨p, hp, he⟩
    exact ⟨p, hp, by simp [he]⟩
  · rintro ⟨p, hp, he⟩
    exact ⟨p, hp, by simpa using he⟩

theorem dictKeys_dictSet {α : Type} (d : List (String × α)) (k : String) (v : α) :
    dictKeys (dictSet d k v) =
      if d.any (fun p => p.1 == k) then dictKeys d else dictKeys d ++ [k] := by
  unfold dictSet
  split
  · simp only [dictKeys, List.map_map]
    refine List.map_congr_left (fun p _ => ?_)
    by_cases h : p.1 = k
    · simp [h]
    · simp [h]
  · simp [dictKeys]

theorem dictKeys_dictSet_nodup {α : Type} {d : List (String × α)} (k : String) (v : α)
    (h : (dictKeys d).Nodup) : (dictKeys (dictSet d k v)).Nodup := by
  rw [dictKeys_dictSet]
  split
  · exact h
  · rename_i hany
    rw [List.nodup_append]
    refine ⟨h, List.nodup_singleton k, ?_⟩
    intro a ha hk
    simp only [List.mem_singleton] at hk
    subst hk
    rw [mem_dictKeys_iff_any] at ha
    exact absurd ha (by simp [hany])

theorem mem_dictKeys_dictSet {α : Type} (d : List (String × α)) (k : String) (v : α)
    (a : String) : a ∈ dictKeys (dictSet d k v) ↔ a = k ∨ a ∈ dictKeys d := by
  rw [dictKeys_dictSet]
  split
  · rename_i hany
    constructor
    · exact Or.inr
    · rintro (rfl | h)
      · rw [mem_dictKeys_iff_any]; exact hany
      · exact h
  · simp [or_comm]

theorem dictGet_eq_none_iff {α : Type} (d : List (String × α)) (a : String) :
    dictGet d a = none ↔ a ∉ dictKeys d := by
  rw [dictGet, Option.map_eq_none', List.find?_eq_none, mem_dictKeys_iff_any,
    List.any_eq_true]
  constructor
  · intro h hex
    obtain ⟨x, hx, he⟩ := hex
    exact h x hx he
  · intro h x hx he
    exact h ⟨x, hx, he⟩

theorem find?_map_update_self {α : Type} (k : String) (v : α) :
    ∀ d : List (String × α), d.any (fun p => p.1 == k) = true →
      List.find? (fun p => p.1 == k)
        (d.map (fun p => if p.1 == k then (k, v) else p)) = some (k, v) := by
  intro d
  induction d with
  | nil => intro h; simp at h
  | cons q d ih =>
    intro h
    rw [List.map_cons]
    by_cases hqk : q.1 = k
    · rw [if_pos (beq_iff_eq.mpr hqk)]
      exact @List.find?_cons_of_pos _ (fun p => p.1 == k) (k, v) _ (by simp)
    · rw [if_neg (by simp [hqk]),
        @List.find?_cons_of_neg _ (fun p => p.1 == k) q _ (by simp [hqk])]
      exact ih (by simpa [hqk] using h)

theorem find?_map_update_ne {α : Type} (k : String) (v : α) (a : String) (h : a ≠ k) :
    ∀ d : List (String × α),
      List.find? (fun p => p.1 == a)
        (d.map (fun p => if p.1 == k then (k, v) else p)) =
      List.find? (fun p => p.1 == a) d := by
  intro d
  induction d with
  | nil => rfl
  | cons q d ih =>
    rw [List.map_cons]
    by_cases hqk : q.1 = k
    · rw [if_pos (beq_iff_eq.mpr hqk),
        @List.find?_cons_of_neg _ (fun p => p.1 == a) (k, v) _ (by simp [Ne.symm h]),
        @List.find?_cons_of_neg _ (fun p => p.1 == a) q _ (by simp [hqk, Ne.symm h])]
      exact ih
    · rw [if_neg (by simp [hqk])]
      by_cases hqa : q.1 = a
      · rw [@List.find?_cons_of_pos _ (fun p => p.1 == a) q _ (by simp [hqa]),
          @List.find?_cons_of_pos _ (fun p => p.1 == a) q _ (by simp [hqa])]
      · rw [@List.find?_cons_of_neg _ (fun p => p.1 == a) q _ (by simp [hqa]),
          @List.find?_cons_of_neg _ (fun p => p.1 == a) q _ (by simp [hqa])]
        exact ih

theorem dictGet_dictSet_self {α : Type} (d : List (String × α)) (k : String) (v : α) :
    dictGet (dictSet d k v) k = some v := by
  unfold dictSet
  split
  · rename_i hany
    rw [dictGet, find?_map_update_self k v d hany]
    rfl
  · rename_i hany
    rw [dictGet, List.find?_append]
    have h1 : d.find? (fun p => p.1 == k) = none := by
      rw [List.find?_eq_none]
      intro x hx
      simp only [Bool.not_eq_true]
      by_contra hc
      exact hany (List.any_eq_true.mpr ⟨x, hx, by simpa using hc⟩)
    simp [h1]

theorem dictGet_dictSet_ne {α : Type} (d : List (String × α)) (k : String) (v : α)
    (a : String) (h : a ≠ k) : dictGet (dictSet d k v) a = dictGet d a := by
  unfold dictSet
  split
  · rw [dictGet, dictGet, find?_map_update_ne k v a h d]
  · rw [dictGet, dictGet, List.find?_append]
    have h2 : List.find? (fun p => p.1 == a) [(k, v)] = none := by
      simp [Ne.symm h]
    simp [h2]

theorem dictGet_cons {α : Type} (p : String × α) (d : List (String × α)) (a : String) :
    dictGet (p :: d) a = if p.1 = a then some p.2 else dictGet d a := by
  by_cases hp : p.1 = a
  · rw [dictGet, @List.find?_cons_of_pos _ (fun q => q.1 == a) p _ (by simp [hp]), if_pos hp]
    rfl
  · rw [dictGet, @List.find?_cons_of_neg _ (fun q => q.1 == a) p _ (by simp [hp]), if_neg hp]
    rfl

/-! ### The `set` model -/

theorem mem_setAdd (s : List String) (m x : String) :
    x ∈ setAdd s m ↔ x = m ∨ x ∈ s := by
  unfold setAdd
  split
  · rename_i hm
    constructor
    · exact Or.inr
    · rintro (rfl | h)
      · exact hm
      · exact h
  · simp [or_comm]

theorem setAdd_nodup {s : List String} (m : String) (h : s.Nodup) :
    (setAdd s m).Nodup := by
  unfold setAdd
  split
  · exact h
  · rename_i hm
    rw [List.nodup_append]
    exact ⟨h, List.nodup_singleton m, by
      intro x hx hm'
      simp only [List.mem_singleton] at hm'
      subst hm'
      exact hm hx⟩

theorem setAdd_ne_nil (s : List String) (m : String) : setAdd s m ≠ [] := by
  unfold setAdd
  split
  · rename_i hm
    intro hc
    rw [hc] at hm
    cases hm
  · simp

/-! ### The default-`None` dict of line 122 -/

theorem initFold_keys_mem (agents : List String) :
    ∀ (d : List (String × Json)) (a : String),
      a ∈ dictKeys (agents.foldl (fun d a => dictSet d a Json.null) d) ↔
        a ∈ dictKeys d ∨ a ∈ agents := by
  induction agents with
  | nil => simp
  | cons b agents ih =>
    intro d a
    rw [List.foldl_cons, ih, mem_dictKeys_dictSet]
    constructor
    · rintro ((h | h) | h)
      · exact Or.inr (List.mem_cons.mpr (Or.inl h))
      · exact Or.inl h
      · exact Or.inr (List.mem_cons_of_mem b h)
    · rintro (h | h)
      · exact Or.inl (Or.inr h)
      · rcases List.mem_cons.mp h with rfl | h
        · exact Or.inl (Or.inl rfl)
        · exact Or.inr h

theorem initFold_keys_nodup (agents : List String) :
    ∀ d : List (String × Json), (dictKeys d).Nodup →
      (dictKeys (agents.foldl (fun d a => dictSet d a Json.null) d)).Nodup := by
  induction agents with
  | nil => exact fun d h => h
  | cons b agents ih =>
    intro d h
    rw [List.foldl_cons]
    exact ih _ (dictKeys_dictSet_nodup b Json.null h)

theorem initFold_get_of_not_mem (agents : List String) :
    ∀ (d : List (String × Json)) (a : String), a ∉ agents →
      dictGet (agents.foldl (fun d a => dictSet d a Json.null) d) a = dictGet d a := by
  induction agents with
  | nil => exact fun d a _ => rfl
  | cons b agents ih =>
    intro d a h
    rw [List.foldl_cons, ih _ _ (fun hc => h (List.mem_cons_of_mem b hc)),
      dictGet_dictSet_ne _ _ _ _ (fun hc => h (List.mem_cons.mpr (Or.inl hc)))]

theorem initFold_get_of_mem (agents : List String) :
    ∀ (d : List (String × Json)) (a : String), a ∈ agents →
      dictGet (agents.foldl (fun d a => dictSet d a Json.null) d) a = some Json.null := by
  induction agents with
  | nil => intro d a h; cases h
  | cons b agents ih =>
    intro d a h
    rw [List.foldl_cons]
    by_cases hm : a ∈ agents
    · exact ih _ _ hm
    · rcases List.mem_cons.mp h with rfl | h'
      · rw [initFold_get_of_not_mem agents _ _ hm, dictGet_dictSet_self]
      · exact absurd h' hm

theorem initResponse_keys_mem (agents : List String) (a : String) :
    a ∈ dictKeys (initResponse agents) ↔ a ∈ agents := by
  rw [initResponse, initFold_keys_mem]
  simp [dictKeys]

theorem initResponse_keys_nodup (agents : List String) :
    (dictKeys (initResponse agents)).Nodup :=
  initFold_keys_nodup agents [] (by simp [dictKeys])

theorem initResponse_get_of_mem (agents : List String) (a : String) (h : a ∈ agents) :
    dictGet (initResponse agents) a = some Json.null :=
  initFold_get_of_mem agents [] a h

/-! ### The manager-collection loop of lines 125-132 -/

theorem collectStep_keys_mem (am : List (String × List String)) (row : Row) (x : String) :
    x ∈ dictKeys (collectStep am row) ↔
      x ∈ dictKeys am ∨ (row.agent = x ∧ ∃ m, row.manager = some m ∧ m ≠ "") := by
  obtain ⟨b, mgr⟩ := row
  cases mgr with
  | none => simp [collectStep]
  | some m =>
    by_cases hme : m = ""
    · subst hme
      simp [collectStep]
    · have hT : (m != "") = true := by simp [hme]
      cases hd : dictGet am b with
      | none =>
        simp only [collectStep, hT, if_true, hd]
        rw [mem_dictKeys_dictSet]
        constructor
        · rintro (h | h)
          · exact Or.inr ⟨h.symm, m, rfl, hme⟩
          · exact Or.inl h
        · rintro (h | ⟨h, _⟩)
          · exact Or.inr h
          · exact Or.inl h.symm
      | some s =>
        simp only [collectStep, hT, if_true, hd]
        rw [mem_dictKeys_dictSet]
        constructor
        · rintro (h | h)
          · exact Or.inr ⟨h.symm, m, rfl, hme⟩
          · exact Or.inl h
        · rintro (h | ⟨h, _⟩)
          · exact Or.inr h
          · exact Or.inl h.symm

theorem collectStep_keys_nodup (am : List (String × List String)) (row : Row)
    (h : (dictKeys am).Nodup) : (dictKeys (collectStep am row)).Nodup := by
  obtain ⟨b, mgr⟩ := row
  cases mgr with
  | none => exact h
  | some m =>
    by_cases hme : m = ""
    · subst hme
      exact h
    · have hT : (m != "") = true := by simp [hme]
      cases hd : dictGet am b with
      | none =>
        simp only [collectStep, hT, if_true, hd]
        exact dictKeys_dictSet_nodup _ _ h
      | some s =>
        simp only [collectStep, hT, if_true, hd]
        exact dictKeys_dictSet_nodup _ _ h

theorem dictSet_get_mem_iff (d : List (String × List String)) (k : String)
    (v : List String) (m : String) :
    (∃ ms, dictGet (dictSet d k v) k = some ms ∧ m ∈ ms) ↔ m ∈ v := by
  rw [dictGet_dictSet_self]
  constructor
  · rintro ⟨ms, hms, hm⟩
    cases hms
    exact hm
  · exact fun hm => ⟨v, rfl, hm⟩

theorem collectStep_get_mem (am : List (String × List String)) (row : Row)
    (x m : String) :
    (∃ ms, dictGet (collectStep am row) x = some ms ∧ m ∈ ms) ↔
      (∃ ms, dictGet am x = some ms ∧ m ∈ ms) ∨
        (row.agent = x ∧ row.manager = some m ∧ m ≠ "") := by
  obtain ⟨b, mgr⟩ := row
  cases mgr with
  | none => simp [collectStep]
  | some m0 =>
    by_cases hme : m0 = ""
    · subst hme
      constructor
      · exact Or.inl
      · rintro (h | ⟨_, hm, hne⟩)
        · exact h
        · cases hm
          exact absurd rfl hne
    · have hT : (m0 != "") = true := by simp [hme]
      rcases eq_or_ne x b with rfl | hne
      · cases hd : dictGet am x with
        | none =>
          have hstep : collectStep am ⟨x, some m0⟩ = dictSet am x (setAdd [] m0) := by
            simp [collectStep, hT, hd]
          rw [hstep, dictSet_get_mem_iff, mem_setAdd]
          constructor
          · rintro (rfl | h)
            · exact Or.inr ⟨rfl, rfl, hme⟩
            · cases h
          · rintro (⟨ms, hms, _⟩ | ⟨_, hm, _⟩)
            · cases hms
            · cases hm
              exact Or.inl rfl
        | some s =>
          have hstep : collectStep am ⟨x, some m0⟩ = dictSet am x (setAdd s m0) := by
            simp [collectStep, hT, hd]
          rw [hstep, dictSet_get_mem_iff, mem_setAdd]
          constructor
          · rintro (rfl | h)
            · exact Or.inr ⟨rfl, rfl, hme⟩
            · exact Or.inl ⟨s, rfl, h⟩
          · rintro (⟨ms, hms, hm⟩ | ⟨_, hm, _⟩)
            · cases hms
              exact Or.inr hm
            · cases hm
              exact Or.inl rfl
      · cases hd : dictGet am b with
        | none =>
          have hstep : collectStep am ⟨b, some m0⟩ = dictSet am b (setAdd [] m0) := by
            simp [collectStep, hT, hd]
          rw [hstep, dictGet_dictSet_ne _ _ _ _ hne]
          constructor
          · exact Or.inl
          · rintro (h | ⟨hbx, _, _⟩)
            · exact h
            · exact absurd hbx.symm hne
        | some s =>
          have hstep : collectStep am ⟨b, some m0⟩ = dictSet am b (setAdd s m0) := by
            simp [collectStep, hT, hd]
          rw [hstep, dictGet_dictSet_ne _ _ _ _ hne]
          constructor
          · exact Or.inl
          · rintro (h | ⟨hbx, _, _⟩)
            · exact h
            · exact absurd hbx.symm hne

theorem collectStep_values (am : List (String × List String)) (row : Row)
    (h : ∀ x ms, dictGet am x = some ms → ms.Nodup ∧ ms ≠ []) :
    ∀ x ms, dictGet (collectStep am row) x = some ms → ms.Nodup ∧ ms ≠ [] := by
  obtain ⟨b, mgr⟩ := row
  cases mgr with
  | none => exact h
  | some m0 =>
    by_cases hme : m0 = ""
    · subst hme
      exact h
    · have hT : (m0 != "") = true := by simp [hme]
      intro x ms
      cases hd : dictGet am b with
      | none =>
        have hstep : collectStep am ⟨b, some m0⟩ = dictSet am b (setAdd [] m0) := by
          simp [collectStep, hT, hd]
        rw [hstep]
        rcases eq_or_ne x b with rfl | hne
        · rw [dictGet_dictSet_self]
          intro hms
          cases hms
          exact ⟨setAdd_nodup m0 List.nodup_nil, setAdd_ne_nil [] m0⟩
        · rw [dictGet_dictSet_ne _ _ _ _ hne]
          exact h x ms
      | some s =>
        have hstep : collectStep am ⟨b, some m0⟩ = dictSet am b (setAdd s m0) := by
          simp [collectStep, hT, hd]
        rw [hstep]
        rcases eq_or_ne x b with rfl | hne
        · rw [dictGet_dictSet_self]
          intro hms
          cases hms
          exact ⟨setAdd_nodup m0 (h x s hd).1, setAdd_ne_nil s m0⟩
        · rw [dictGet_dictSet_ne _ _ _ _ hne]
          exact h x ms

theorem collectFold_keys_mem (rows : List Row) :
    ∀ (am : List (String × List String)) (x : String),
      x ∈ dictKeys (rows.foldl collectStep am) ↔
        x ∈ dictKeys am ∨ ∃ r ∈ rows, r.agent = x ∧ ∃ m, r.manager = some m ∧ m ≠ "" := by
  induction rows with
  | nil => simp
  | cons r rows ih =>
    intro am x
    rw [List.foldl_cons, ih, collectStep_keys_mem]
    constructor
    · rintro ((h | h) | ⟨r', hr', hp⟩)
      · exact Or.inl h
      · exact Or.inr ⟨r, List.mem_cons_self r rows, h⟩
      · exact Or.inr ⟨r', List.mem_cons_of_mem r hr', hp⟩
    · rintro (h | ⟨r', hr', hp⟩)
      · exact Or.inl (Or.inl h)
      · rcases List.mem_cons.mp hr' with rfl | hr''
        · exact Or.inl (Or.inr hp)
        · exact Or.inr ⟨r', hr'', hp⟩

theorem collectFold_keys_nodup (rows : List Row) :
    ∀ am : List (String × List String), (dictKeys am).Nodup →
      (dictKeys (rows.foldl collectStep am)).Nodup := by
  induction rows with
  | nil => exact fun am h => h
  | cons r rows ih =>
    intro am h
    rw [List.foldl_cons]
    exact ih _ (collectStep_keys_nodup am r h)

theorem collectFold_get_mem (rows : List Row) :
    ∀ (am : List (String × List String)) (x m : String),
      (∃ ms, dictGet (rows.foldl collectStep am) x = some ms ∧ m ∈ ms) ↔
        (∃ ms, dictGet am x = some ms ∧ m ∈ ms) ∨
          ∃ r ∈ rows, r.agent = x ∧ r.manager = some m ∧ m ≠ "" := by
  induction rows with
  | nil => simp
  | cons r rows ih =>
    intro am x m
    rw [List.foldl_cons, ih, collectStep_get_mem]
    constructor
    · rintro ((h | h) | ⟨r', hr', hp⟩)
      · exact Or.inl h
      · exact Or.inr ⟨r, List.mem_cons_self r rows, h⟩
      · exact Or.inr ⟨r', List.mem_cons_of_mem r hr', hp⟩
    · rintro (h | ⟨r', hr', hp⟩)
      · exact Or.inl (Or.inl h)
      · rcases List.mem_cons.mp hr' with rfl | hr''
        · exact Or.inl (Or.inr hp)
        · exact Or.inr ⟨r', hr'', hp⟩

theorem collectFold_values (rows : List Row) :
    ∀ am : List (String × List String),
      (∀ x ms, dictGet am x = some ms → ms.Nodup ∧ ms ≠ []) →
      ∀ x ms, dictGet (rows.foldl collectStep am) x = some ms → ms.Nodup ∧ ms ≠ [] := by
  induction rows with
  | nil => exact fun am h => h
  | cons r rows ih =>
    intro am h
    rw [List.foldl_cons]
    exact ih _ (collectStep_values am r h)

theorem collectManagers_keys_mem (rows : List Row) (x : String) :
    x ∈ dictKeys (collectManagers rows) ↔
      ∃ r ∈ rows, r.agent = x ∧ ∃ m, r.manager = some m ∧ m ≠ "" := by
  rw [collectManagers, collectFold_keys_mem]
  simp [dictKeys]

theorem collectManagers_keys_nodup (rows : List Row) :
    (dictKeys (collectManagers rows)).Nodup :=
  collectFold_keys_nodup rows [] (by simp [dictKeys])

theorem collectManagers_get_mem (rows : List Row) (x m : String) :
    (∃ ms, dictGet (collectManagers rows) x = some ms ∧ m ∈ ms) ↔
      ∃ r ∈ rows, r.agent = x ∧ r.manager = some m ∧ m ≠ "" := by
  rw [collectManagers, collectFold_get_mem]
  simp [dictGet]

theorem collectManagers_values (rows : List Row) (x : String) (ms : List String)
    (h : dictGet (collectManagers rows) x = some ms) : ms.Nodup ∧ ms ≠ [] :=
  collectFold_values rows [] (fun x ms h' => by cases h') x ms h

theorem collectManagers_get_none (rows : List Row) (x : String)
    (h : ∀ r ∈ rows, r.agent = x → ∀ m, r.manager = some m → m = "") :
    dictGet (collectManagers rows) x = none := by
  rw [dictGet_eq_none_iff, collectManagers_keys_mem]
  rintro ⟨r, hr, ha, m, hm, hne⟩
  exact hne (h r hr ha m hm)

/-! ### The overlay loop of lines 135-137 -/

theorem overlayStep_get_ne (rd : List (String × Json)) (p : String × List String)
    (a : String) (h : a ≠ p.1) : dictGet (overlayStep rd p) a = dictGet rd a := by
  unfold overlayStep
  split
  · rfl
  · exact dictGet_dictSet_ne rd p.1 _ a h

theorem overlayStep_keys_mem_of_mem (rd : List (String × Json)) (p : String × List String)
    (x : String) (h : x ∈ dictKeys rd) : x ∈ dictKeys (overlayStep rd p) := by
  unfold overlayStep
  split
  · exact h
  · exact (mem_dictKeys_dictSet rd p.1 _ x).mpr (Or.inr h)

theorem overlayStep_keys_nodup (rd : List (String × Json)) (p : String × List String)
    (h : (dictKeys rd).Nodup) : (dictKeys (overlayStep rd p)).Nodup := by
  unfold overlayStep
  split
  · exact h
  · exact dictKeys_dictSet_nodup p.1 _ h

theorem overlay_keys_mem_of_mem (am : List (String × List String)) :
    ∀ (rd : List (String × Json)) (x : String), x ∈ dictKeys rd →
      x ∈ dictKeys (overlayManagers rd am) := by
  induction am with
  | nil => exact fun rd x h => h
  | cons p rest ih =>
    intro rd x h
    rw [overlayManagers, List.foldl_cons]
    exact ih (overlayStep rd p) x (overlayStep_keys_mem_of_mem rd p x h)

theorem overlay_keys_nodup (am : List (String × List String)) :
    ∀ rd : List (String × Json), (dictKeys rd).Nodup →
      (dictKeys (overlayManagers rd am)).Nodup := by
  induction am with
  | nil => exact fun rd h => h
  | cons p rest ih =>
    intro rd h
    rw [overlayManagers, List.foldl_cons]
    exact ih (overlayStep rd p) (overlayStep_keys_nodup rd p h)

theorem overlay_get_of_none (am : List (String × List String)) :
    ∀ (rd : List (String × Json)) (a : String), dictGet am a = none →
      dictGet (overlayManagers rd am) a = dictGet rd a := by
  induction am with
  | nil => exact fun rd a _ => rfl
  | cons p rest ih =>
    intro rd a h
    rw [dictGet_cons] at h
    by_cases hp : p.1 = a
    · rw [if_pos hp] at h
      cases h
    · rw [if_neg hp] at h
      rw [overlayManagers, List.foldl_cons]
      have := ih (overlayStep rd p) a h
      rw [overlayManagers] at this
      rw [this, overlayStep_get_ne rd p a (fun hc => hp hc.symm)]

theorem overlay_get_of_some (am : List (String × List String)) :
    ∀ (rd : List (String × Json)) (a : String) (ms : List String),
      (dictKeys am).Nodup → dictGet am a = some ms →
      dictGet (overlayManagers rd am) a =
        if ms.isEmpty then dictGet rd a else some (Json.str (joinSorted ms)) := by
  induction am with
  | nil => intro rd a ms _ h; cases h
  | cons p rest ih =>
    intro rd a ms hnd h
    have hnd' : (dictKeys rest).Nodup := by
      simpa [dictKeys] using hnd.of_cons
    rw [dictGet_cons] at h
    rw [overlayManagers, List.foldl_cons]
    by_cases hp : p.1 = a
    · rw [if_pos hp] at h
      cases h
      have hrest : dictGet rest a = none := by
        rw [dictGet_eq_none_iff]
        intro hc
        have : p.1 ∈ dictKeys rest := hp ▸ hc
        simpa [dictKeys] using (List.nodup_cons.mp (by simpa [dictKeys] using hnd)).1 this
      have hnone := overlay_get_of_none rest (overlayStep rd p) a hrest
      rw [overlayManagers] at hnone
      rw [hnone]
      unfold overlayStep
      by_cases he : p.2.isEmpty
      · rw [if_pos he, if_pos he]
      · rw [if_neg he, if_neg he, hp, dictGet_dictSet_self]
    · rw [if_neg hp] at h
      have := ih (overlayStep rd p) a ms hnd' h
      rw [overlayManagers] at this
      rw [this]
      by_cases he : ms.isEmpty
      · rw [if_pos he, if_pos he, overlayStep_get_ne rd p a (fun hc => hp hc.symm)]
      · rw [if_neg he, if_neg he]

/-! ### Assembling the handler -/

instance : IsTotal String strLe :=
  ⟨fun a b => le_total a.data b.data⟩

instance : IsTrans String strLe :=
  ⟨fun _ _ _ hab hbc => le_trans hab hbc⟩

/-- The final managers dict built by `get_managers` on a successful query. -/
def finalManagers (agents : List String) (rows : List Row) : List (String × Json) :=
  overlayManagers (initResponse agents) (collectManagers rows)

theorem get_managers_ok (agents : List String) (rows : List Row) :
    get_managers agents (DbOutcome.ok rows) =
      ⟨200, Json.obj [("managers", Json.obj (finalManagers agents rows))]⟩ := rfl

theorem respManagers_get_managers (agents : List String) (rows : List Row) :
    respManagers (get_managers agents (DbOutcome.ok rows)) =
      some (finalManagers agents rows) := rfl

theorem api_managers_pass (api_keys : List String) (req : Request) (db : DbOutcome)
    (agents : List String)
    (hauth : require_api_key api_keys req.apiKey = none)
    (hval : validate_agents 300 false req.isJson req.body = VResult.pass agents) :
    api_managers api_keys req db = get_managers agents db := by
  unfold api_managers
  rw [hauth, hval]

theorem finalManagers_keys_nodup (agents : List String) (rows : List Row) :
    (dictKeys (finalManagers agents rows)).Nodup :=
  overlay_keys_nodup (collectManagers rows) (initResponse agents)
    (initResponse_keys_nodup agents)

theorem finalManagers_keys_mem (agents : List String) (rows : List Row) (a : String)
    (h : a ∈ agents) : a ∈ dictKeys (finalManagers agents rows) :=
  overlay_keys_mem_of_mem (collectManagers rows) (initResponse agents) a
    ((initResponse_keys_mem agents a).mpr h)

theorem finalManagers_get_null (agents : List String) (rows : List Row) (a : String)
    (ha : a ∈ agents)
    (h : ∀ r ∈ rows, r.agent = a → ∀ m, r.manager = some m → m = "") :
    dictGet (finalManagers agents rows) a = some Json.null := by
  rw [finalManagers,
    overlay_get_of_none (collectManagers rows) (initResponse agents) a
      (collectManagers_get_none rows a h)]
  exact initResponse_get_of_mem agents a ha

theorem finalManagers_get_joined (agents : List String) (rows : List Row) (a : String)
    (hex : ∃ r ∈ rows, r.agent = a ∧ ∃ m, r.manager = some m ∧ m ≠ "") :
    ∃ ms : List String,
      (∀ m, m ∈ ms ↔ ∃ r ∈ rows, r.agent = a ∧ r.manager = some m ∧ m ≠ "") ∧
      ms.Nodup ∧ ms.Sorted strLe ∧
      dictGet (finalManagers agents rows) a =
        some (Json.str (String.intercalate ", " ms)) := by
  have hk : a ∈ dictKeys (collectManagers rows) :=
    (collectManagers_keys_mem rows a).mpr hex
  cases hget : dictGet (collectManagers rows) a with
  | none => exact absurd ((dictGet_eq_none_iff _ a).mp hget) (fun hc => hc hk)
  | some ms0 =>
    obtain ⟨hnd, hne⟩ := collectManagers_values rows a ms0 hget
    refine ⟨List.insertionSort strLe ms0, ?_, ?_, ?_, ?_⟩
    · intro m
      rw [List.mem_insertionSort]
      rw [← collectManagers_get_mem rows a m]
      constructor
      · exact fun hm => ⟨ms0, hget, hm⟩
      · rintro ⟨ms', hms', hm⟩
        rw [hget] at hms'
        cases hms'
        exact hm
    · exact (List.perm_insertionSort strLe ms0).nodup_iff.mpr hnd
    · exact List.sorted_insertionSort strLe ms0
    · rw [finalManagers,
        overlay_get_of_some (collectManagers rows) (initResponse agents) a ms0
          (collectManagers_keys_nodup rows) hget]
      rw [if_neg (by simpa [List.isEmpty_iff] using hne)]
      rfl

/-! ### Reduction lemmas for the validation decorator -/

theorem api_managers_fail (api_keys : List String) (req : Request) (db : DbOutcome)
    (r : Resp)
    (hauth : require_api_key api_keys req.apiKey = none)
    (hval : validate_agents 300 false req.isJson req.body = VResult.fail r) :
    api_managers api_keys req db = r := by
  unfold api_managers
  rw [hauth, hval]

theorem pyContains_obj_true (kvs : List (String × Json)) (v : Json)
    (hget : pyGetItem "agents" (Json.obj kvs) = some v) :
    pyContains "agents" (Json.obj kvs) = some true := by
  simp only [pyGetItem] at hget
  cases hf : kvs.find? (fun p => p.1 == "agents") with
  | none => rw [hf] at hget; cases hget
  | some p =>
    have hp := List.find?_some hf
    simp only [pyContains, Option.some_inj]
    exact List.any_eq_true.mpr ⟨p, List.mem_of_find?_eq_some hf, hp⟩

theorem pyContains_obj_false (kvs : List (String × Json))
    (hget : pyGetItem "agents" (Json.obj kvs) = none) :
    pyContains "agents" (Json.obj kvs) = some false := by
  simp only [pyGetItem, Option.map_eq_none'] at hget
  simp only [pyContains, Option.some_inj]
  rw [← Bool.not_eq_true, List.any_eq_true]
  rintro ⟨p, hp, he⟩
  exact absurd he (by simpa using (List.find?_eq_none.mp hget) p hp)

theorem obj_ne_nil_of_get_some (kvs : List (String × Json)) (v : Json)
    (hget : pyGetItem "agents" (Json.obj kvs) = some v) : kvs ≠ [] := by
  rintro rfl
  cases hget

theorem pyTruthy_obj_of_ne_nil (kvs : List (String × Json)) (h : kvs ≠ []) :
    pyTruthy (Json.obj kvs) = true := by
  cases kvs with
  | nil => exact absurd rfl h
  | cons q kvs' => rfl

theorem validate_fail_not_json (max_agents : Nat) (allow_empty : Bool) (body : Json) :
    validate_agents max_agents allow_empty false body =
      VResult.fail (badRequest "Content-Type must be application/json") := rfl

theorem validate_fail_missing (kvs : List (String × Json))
    (hget : pyGetItem "agents" (Json.obj kvs) = none) :
    validate_agents 300 false true (Json.obj kvs) =
      VResult.fail (badRequest "Missing \'agents\' in request body") := by
  cases kvs with
  | nil => rfl
  | cons q kvs' =>
    have hc := pyContains_obj_false _ hget
    simp [validate_agents, hc, pyTruthy]

theorem validate_fail_not_list (kvs : List (String × Json)) (v : Json)
    (hget : pyGetItem "agents" (Json.obj kvs) = some v)
    (hv : ∀ items, v ≠ Json.arr items) :
    validate_agents 300 false true (Json.obj kvs) =
      VResult.fail (badRequest "Agents must be a list") := by
  have ht := pyTruthy_obj_of_ne_nil kvs (obj_ne_nil_of_get_some kvs v hget)
  have hc := pyContains_obj_true kvs v hget
  simp only [validate_agents, Bool.not_true, Bool.not_false, if_false, ht, hc, hget]
  cases v with
  | arr items => exact absurd rfl (hv items)
  | null => rfl
  | bool b => rfl
  | num n => rfl
  | str s => rfl
  | obj fields => rfl

theorem validate_fail_too_many (kvs : List (String × Json)) (items : List Json)
    (hget : pyGetItem "agents" (Json.obj kvs) = some (Json.arr items))
    (hlen : items.length > 300) :
    validate_agents 300 false true (Json.obj kvs) =
      VResult.fail (badRequest "Too many agents, maximum 300") := by
  have ht := pyTruthy_obj_of_ne_nil kvs (obj_ne_nil_of_get_some kvs _ hget)
  have hc := pyContains_obj_true kvs _ hget
  simp only [validate_agents, Bool.not_true, Bool.not_false, if_false, ht, hc, hget]
  rw [if_pos hlen]
  rfl

theorem validate_fail_not_strings (kvs : List (String × Json)) (items : List Json)
    (hget : pyGetItem "agents" (Json.obj kvs) = some (Json.arr items))
    (hlen : items.length ≤ 300) (hstr : items.all Json.isStr = false) :
    validate_agents 300 false true (Json.obj kvs) =
      VResult.fail (badRequest "All agents must be strings") := by
  have ht := pyTruthy_obj_of_ne_nil kvs (obj_ne_nil_of_get_some kvs _ hget)
  have hc := pyContains_obj_true kvs _ hget
  simp only [validate_agents, Bool.not_true, Bool.not_false, if_false, ht, hc, hget]
  rw [if_neg (show ¬items.length > 300 from by omega), hstr]
  rfl

theorem validate_fail_blank_agent (kvs : List (String × Json)) (items : List Json)
    (hget : pyGetItem "agents" (Json.obj kvs) = some (Json.arr items))
    (hlen : items.length ≤ 300) (hstr : items.all Json.isStr = true)
    (hemp : (items.filterMap Json.asStr).any (fun a => pyStrip a == "") = true) :
    validate_agents 300 false true (Json.obj kvs) =
      VResult.fail (badRequest "Agent names cannot be empty") := by
  have ht := pyTruthy_obj_of_ne_nil kvs (obj_ne_nil_of_get_some kvs _ hget)
  have hc := pyContains_obj_true kvs _ hget
  simp only [validate_agents, Bool.not_true, Bool.not_false, if_false, ht, hc, hget]
  rw [if_neg (show ¬items.length > 300 from by omega), hstr, hemp]
  rfl

theorem validate_pass_no_blank (isJson : Bool) (body : Json) (agents : List String)
    (h : validate_agents 300 false isJson body = VResult.pass agents) :
    ∀ a ∈ agents, pyStrip a ≠ "" := by
  unfold validate_agents at h
  split at h
  · cases h
  · split at h
    · cases h
    · split at h
      · cases h
      · cases h
      · split at h
        · cases h
        · split at h
          · split at h
            · cases h
            · split at h
              · cases h
              · simp only [Bool.not_false, Bool.true_and] at h
                split at h
                · cases h
                · rename_i hany
                  cases h
                  intro a ha
                  rw [Bool.not_eq_true] at hany
                  have := List.any_eq_false.mp hany a ha
                  simpa using this
          · cases h

/-! ### The claims -/

/-- C1: for every request that passes authentication and validation, the
returned managers mapping contains every agent of the input list as a key
exactly once, and every agent for which the query returned no row is mapped
to null. -/
theorem C1_response_keys_complete_and_null_default (api_keys : List String)
    (req : Request) (agents : List String) (rows : List Row)
    (hauth : require_api_key api_keys req.apiKey = none)
    (hval : validate_agents 300 false req.isJson req.body = VResult.pass agents) :
    ∃ m, respManagers (api_managers api_keys req (DbOutcome.ok rows)) = some m ∧
      (∀ a ∈ agents, (dictKeys m).count a = 1) ∧
      (∀ a ∈ agents, (∀ r ∈ rows, r.agent ≠ a) → dictGet m a = some Json.null) := by
  rw [api_managers_pass api_keys req (DbOutcome.ok rows) agents hauth hval,
    respManagers_get_managers]
  refine ⟨finalManagers agents rows, rfl, ?_, ?_⟩
  · intro a ha
    exact List.count_eq_one_of_mem (finalManagers_keys_nodup agents rows)
      (finalManagers_keys_mem agents rows a ha)
  · intro a ha hno
    exact finalManagers_get_null agents rows a ha
      (fun r hr hra m hm => absurd hra (hno r hr))

theorem C1_witness :
    ∃ m, respManagers (api_managers ["key1"]
        ⟨some "key1", true, Json.obj [("agents", Json.arr [Json.str "alice", Json.str "bob"])]⟩
        (DbOutcome.ok [⟨"alice", some "m@x.com"⟩])) = some m ∧
      (∀ a ∈ ["alice", "bob"], (dictKeys m).count a = 1) ∧
      (∀ a ∈ ["alice", "bob"], (∀ r ∈ [(⟨"alice", some "m@x.com"⟩ : Row)], r.agent ≠ a) →
        dictGet m a = some Json.null) :=
  C1_response_keys_complete_and_null_default ["key1"]
    ⟨some "key1", true, Json.obj [("agents", Json.arr [Json.str "alice", Json.str "bob"])]⟩
    ["alice", "bob"] [⟨"alice", some "m@x.com"⟩] rfl rfl

/-- C2: for every valid request, an agent with at least one truthy manager in
the query rows is mapped to the comma-joined, lexicographically sorted,
duplicate-free string of exactly those manager emails. -/
theorem C2_multiple_managers_sorted_join (api_keys : List String) (req : Request)
    (agents : List String) (rows : List Row) (a : String)
    (hauth : require_api_key api_keys req.apiKey = none)
    (hval : validate_agents 300 false req.isJson req.body = VResult.pass agents)
    (ha : a ∈ agents)
    (hex : ∃ r ∈ rows, r.agent = a ∧ ∃ m, r.manager = some m ∧ m ≠ "") :
    ∃ m ms, respManagers (api_managers api_keys req (DbOutcome.ok rows)) = some m ∧
      (∀ e, e ∈ ms ↔ ∃ r ∈ rows, r.agent = a ∧ r.manager = some e ∧ e ≠ "") ∧
      ms.Nodup ∧ ms.Sorted strLe ∧
      dictGet m a = some (Json.str (String.intercalate ", " ms)) := by
  rw [api_managers_pass api_keys req (DbOutcome.ok rows) agents hauth hval,
    respManagers_get_managers]
  obtain ⟨ms, hiff, hnd, hsort, hget⟩ := finalManagers_get_joined agents rows a hex
  exact ⟨finalManagers agents rows, ms, rfl, hiff, hnd, hsort, hget⟩

theorem C2_witness :
    ∃ m ms, respManagers (api_managers ["key1"]
        ⟨some "key1", true, Json.obj [("agents", Json.arr [Json.str "alice"])]⟩
        (DbOutcome.ok [⟨"alice", some "m@x.com"⟩, ⟨"alice", some "a@x.com"⟩])) = some m ∧
      (∀ e, e ∈ ms ↔ ∃ r ∈ [(⟨"alice", some "m@x.com"⟩ : Row), ⟨"alice", some "a@x.com"⟩],
        r.agent = "alice" ∧ r.manager = some e ∧ e ≠ "") ∧
      ms.Nodup ∧ ms.Sorted strLe ∧
      dictGet m "alice" = some (Json.str (String.intercalate ", " ms)) :=
  C2_multiple_managers_sorted_join ["key1"]
    ⟨some "key1", true, Json.obj [("agents", Json.arr [Json.str "alice"])]⟩
    ["alice"] [⟨"alice", some "m@x.com"⟩, ⟨"alice", some "a@x.com"⟩] "alice" rfl rfl
    (List.mem_cons_self "alice" [])
    ⟨⟨"alice", some "m@x.com"⟩, List.mem_cons_self _ _, rfl, "m@x.com", rfl, by decide⟩

/-- C3: a request with a missing API key, or a key outside the configured
set, is answered 401 Unauthorized whatever the body, the JSON flag and the
database outcome are: no body validation happens before the auth check. -/
theorem C3_unauthorized_before_validation (api_keys : List String) (req : Request)
    (db : DbOutcome)
    (h : req.apiKey = none ∨ ∃ k, req.apiKey = some k ∧ k ∉ api_keys) :
    api_managers api_keys req db =
      ⟨401, Json.obj [("error", Json.str "Unauthorized")]⟩ := by
  have h401 : require_api_key api_keys req.apiKey =
      some ⟨401, Json.obj [("error", Json.str "Unauthorized")]⟩ := by
    rcases h with h | ⟨k, hk, hnotin⟩
    · rw [h]
      rfl
    · rw [hk]
      have hc : api_keys.contains k = false := by
        simpa using hnotin
      unfold require_api_key
      show (if (k == "" || !api_keys.contains k) = true then
          some (⟨401, Json.obj [("error", Json.str "Unauthorized")]⟩ : Resp) else none) =
        some (⟨401, Json.obj [("error", Json.str "Unauthorized")]⟩ : Resp)
      rw [hc]
      simp
  unfold api_managers
  rw [h401]

theorem C3_witness :
    api_managers ["key1"] ⟨some "wrong", false, Json.null⟩ DbOutcome.dbErr =
      ⟨401, Json.obj [("error", Json.str "Unauthorized")]⟩ :=
  C3_unauthorized_before_validation ["key1"] ⟨some "wrong", false, Json.null⟩
    DbOutcome.dbErr (Or.inr ⟨"wrong", rfl, by decide⟩)

/-- C4: for an authenticated request the body checks run in source order,
each short-circuiting with its own 400 response: non-JSON body, then missing
agents key, then agents not a list, then more than 300 entries, then a
non-string entry, then an entry that strips to the empty string. -/
theorem C4_validation_order_distinct_errors (api_keys : List String) (req : Request)
    (db : DbOutcome)
    (hauth : require_api_key api_keys req.apiKey = none) :
    (req.isJson = false →
      api_managers api_keys req db = badRequest "Content-Type must be application/json") ∧
    (∀ kvs, req.isJson = true → req.body = Json.obj kvs →
      pyGetItem "agents" req.body = none →
      api_managers api_keys req db = badRequest "Missing \'agents\' in request body") ∧
    (∀ kvs v, req.isJson = true → req.body = Json.obj kvs →
      pyGetItem "agents" req.body = some v → (∀ items, v ≠ Json.arr items) →
      api_managers api_keys req db = badRequest "Agents must be a list") ∧
    (∀ kvs items, req.isJson = true → req.body = Json.obj kvs →
      pyGetItem "agents" req.body = some (Json.arr items) → items.length > 300 →
      api_managers api_keys req db = badRequest "Too many agents, maximum 300") ∧
    (∀ kvs items, req.isJson = true → req.body = Json.obj kvs →
      pyGetItem "agents" req.body = some (Json.arr items) → items.length ≤ 300 →
      items.all Json.isStr = false →
      api_managers api_keys req db = badRequest "All agents must be strings") ∧
    (∀ kvs items, req.isJson = true → req.body = Json.obj kvs →
      pyGetItem "agents" req.body = some (Json.arr items) → items.length ≤ 300 →
      items.all Json.isStr = true →
      (items.filterMap Json.asStr).any (fun a => pyStrip a == "") = true →
      api_managers api_keys req db = badRequest "Agent names cannot be empty") := by
  refine ⟨?_, ?_, ?_, ?_, ?_, ?_⟩
  · intro hj
    refine api_managers_fail _ _ _ _ hauth ?_
    rw [hj]
    exact validate_fail_not_json 300 false req.body
  · intro kvs hj hb hget
    refine api_managers_fail _ _ _ _ hauth ?_
    rw [hj, hb]
    rw [hb] at hget
    exact validate_fail_missing kvs hget
  · intro kvs v hj hb hget hv
    refine api_managers_fail _ _ _ _ hauth ?_
    rw [hj, hb]
    rw [hb] at hget
    exact validate_fail_not_list kvs v hget hv
  · intro kvs items hj hb hget hlen
    refine api_managers_fail _ _ _ _ hauth ?_
    rw [hj, hb]
    rw [hb] at hget
    exact validate_fail_too_many kvs items hget hlen
  · intro kvs items hj hb hget hlen hstr
    refine api_managers_fail _ _ _ _ hauth ?_
    rw [hj, hb]
    rw [hb] at hget
    exact validate_fail_not_strings kvs items hget hlen hstr
  · intro kvs items hj hb hget hlen hstr hemp
    refine api_managers_fail _ _ _ _ hauth ?_
    rw [hj, hb]
    rw [hb] at hget
    exact validate_fail_blank_agent kvs items hget hlen hstr hemp

theorem C4_witness :
    api_managers ["key1"] ⟨some "key1", false, Json.null⟩ DbOutcome.dbErr =
      badRequest "Content-Type must be application/json" :=
  (C4_validation_order_distinct_errors ["key1"] ⟨some "key1", false, Json.null⟩
    DbOutcome.dbErr rfl).1 rfl

/-- C5: an authenticated request whose agents list holds more than 300
entries is answered 400 with the too-many message, whatever the entries
are and whatever the database would have answered. -/
theorem C5_too_many_agents_rejected (api_keys : List String) (req : Request)
    (db : DbOutcome) (kvs : List (String × Json)) (items : List Json)
    (hauth : require_api_key api_keys req.apiKey = none)
    (hjson : req.isJson = true) (hbody : req.body = Json.obj kvs)
    (hget : pyGetItem "agents" req.body = some (Json.arr items))
    (hlen : items.length > 300) :
    api_managers api_keys req db = badRequest "Too many agents, maximum 300" := by
  refine api_managers_fail _ _ _ _ hauth ?_
  rw [hjson, hbody]
  rw [hbody] at hget
  exact validate_fail_too_many kvs items hget hlen

theorem C5_witness :
    api_managers ["key1"]
      ⟨some "key1", true, Json.obj [("agents", Json.arr (List.replicate 301 (Json.str "x")))]⟩
      DbOutcome.dbErr = badRequest "Too many agents, maximum 300" :=
  C5_too_many_agents_rejected ["key1"]
    ⟨some "key1", true, Json.obj [("agents", Json.arr (List.replicate 301 (Json.str "x")))]⟩
    DbOutcome.dbErr [("agents", Json.arr (List.replicate 301 (Json.str "x")))]
    (List.replicate 301 (Json.str "x")) rfl rfl rfl rfl
    (by rw [List.length_replicate]; omega)

/-- For a validated, nonempty agent list the built `IN` clause holds at least
one placeholder, the SQL is well formed, and the query-aware endpoint agrees
with the abstract one. -/
theorem api_managers_db_agrees (api_keys : List String) (req : Request)
    (db : DbOutcome) (agents : List String)
    (hval : validate_agents 300 false req.isJson req.body = VResult.pass agents)
    (hne : agents ≠ []) :
    api_managers_db api_keys req db = api_managers api_keys req db := by
  unfold api_managers_db api_managers
  cases hauth : require_api_key api_keys req.apiKey with
  | some r => rfl
  | none =>
    rw [hval]
    show get_managers agents (runQuery agents db) = get_managers agents db
    unfold runQuery
    rw [if_neg (by simpa [List.isEmpty_iff] using hne)]

/-- C6, counterexample to the claimed empty managers mapping: the body with
an empty agents list does pass validation, but the query-aware endpoint
answers 500 Database error even when the database itself would have
returned no rows, because the built SQL ends in an empty `IN ()` list. -/
theorem C6_counterexample :
    validate_agents 300 false true (Json.obj [("agents", Json.arr [])]) =
      VResult.pass [] ∧
    api_managers_db ["key1"] ⟨some "key1", true, Json.obj [("agents", Json.arr [])]⟩
      (DbOutcome.ok []) = ⟨500, Json.obj [("error", Json.str "Database error")]⟩ :=
  ⟨rfl, rfl⟩

/-- C6 (amended): the body with an empty agents list passes validation even
with allow_empty false (the emptiness check only rejects empty strings
inside the list), but the handler then builds a query whose `IN` list is
empty, the database rejects it as a syntax error, and the response is 500
Database error rather than an empty managers mapping — whatever the
database outcome would have been. -/
theorem C6_empty_agents_accepted_then_db_error (api_keys : List String) (k : String)
    (db : DbOutcome) (hk : k ∈ api_keys) (hne : k ≠ "") :
    validate_agents 300 false true (Json.obj [("agents", Json.arr [])]) =
      VResult.pass [] ∧
    api_managers_db api_keys ⟨some k, true, Json.obj [("agents", Json.arr [])]⟩ db =
      ⟨500, Json.obj [("error", Json.str "Database error")]⟩ := by
  refine ⟨rfl, ?_⟩
  have hauth : require_api_key api_keys (some k) = none := by
    have hc : api_keys.contains k = true := by
      simpa using hk
    have hke : (k == "") = false := by
      simpa using hne
    unfold require_api_key
    show (if (k == "" || !api_keys.contains k) = true then
        some (⟨401, Json.obj [("error", Json.str "Unauthorized")]⟩ : Resp) else none) = none
    rw [hc, hke]
    simp
  unfold api_managers_db
  rw [hauth]
  rfl

theorem C6_amended_witness :
    validate_agents 300 false true (Json.obj [("agents", Json.arr [])]) =
      VResult.pass [] ∧
    api_managers_db ["key1"] ⟨some "key1", true, Json.obj [("agents", Json.arr [])]⟩
      (DbOutcome.ok []) = ⟨500, Json.obj [("error", Json.str "Database error")]⟩ :=
  C6_empty_agents_accepted_then_db_error ["key1"] "key1" (DbOutcome.ok [])
    (by decide) (by decide)

/-- C7: the health endpoint answers 200 with status healthy and the request
timestamp, for every timestamp; its definition takes no database outcome and
never produces the 500 unhealthy shape. -/
theorem C7_health_always_healthy (ts : String) :
    health_check ts =
      ⟨200, Json.obj [("status", Json.str "healthy"), ("timestamp", Json.str ts)]⟩ ∧
    (health_check ts).status ≠ 500 :=
  ⟨rfl, by simp [health_check]⟩

theorem C7_witness :
    health_check "2024-01-01T00:00:00" =
      ⟨200, Json.obj [("status", Json.str "healthy"),
        ("timestamp", Json.str "2024-01-01T00:00:00")]⟩ ∧
    (health_check "2024-01-01T00:00:00").status ≠ 500 :=
  C7_health_always_healthy "2024-01-01T00:00:00"

/-- C8: once authentication and validation pass, a database error is
answered 500 with exactly the Database error body and any other exception
500 with exactly the Internal server error body: no detail, no partial
managers mapping. -/
theorem C8_database_error_masking (api_keys : List String) (req : Request)
    (agents : List String)
    (hauth : require_api_key api_keys req.apiKey = none)
    (hval : validate_agents 300 false req.isJson req.body = VResult.pass agents) :
    api_managers api_keys req DbOutcome.dbErr =
      ⟨500, Json.obj [("error", Json.str "Database error")]⟩ ∧
    api_managers api_keys req DbOutcome.otherErr =
      ⟨500, Json.obj [("error", Json.str "Internal server error")]⟩ := by
  constructor
  · rw [api_managers_pass api_keys req DbOutcome.dbErr agents hauth hval]
    rfl
  · rw [api_managers_pass api_keys req DbOutcome.otherErr agents hauth hval]
    rfl

theorem C8_witness :
    api_managers ["key1"] ⟨some "key1", true, Json.obj [("agents", Json.arr [Json.str "alice"])]⟩
      DbOutcome.dbErr = ⟨500, Json.obj [("error", Json.str "Database error")]⟩ ∧
    api_managers ["key1"] ⟨some "key1", true, Json.obj [("agents", Json.arr [Json.str "alice"])]⟩
      DbOutcome.otherErr = ⟨500, Json.obj [("error", Json.str "Internal server error")]⟩ :=
  C8_database_error_masking ["key1"]
    ⟨some "key1", true, Json.obj [("agents", Json.arr [Json.str "alice"])]⟩
    ["alice"] rfl rfl

/-- C9: the emptiness check strips each agent before comparing with the
empty string, so whitespace-only agents are rejected with 400 Agent names
cannot be empty, and every accepted agent keeps a non-whitespace
character. -/
theorem C9_whitespace_only_agents_rejected (api_keys : List String) (req : Request)
    (db : DbOutcome)
    (hauth : require_api_key api_keys req.apiKey = none) :
    (∀ kvs items, req.isJson = true → req.body = Json.obj kvs →
      pyGetItem "agents" req.body = some (Json.arr items) → items.length ≤ 300 →
      items.all Json.isStr = true →
      (items.filterMap Json.asStr).any (fun a => pyStrip a == "") = true →
      api_managers api_keys req db = badRequest "Agent names cannot be empty") ∧
    (∀ agents, validate_agents 300 false req.isJson req.body = VResult.pass agents →
      ∀ a ∈ agents, pyStrip a ≠ "") := by
  constructor
  · intro kvs items hj hb hget hlen hstr hemp
    refine api_managers_fail _ _ _ _ hauth ?_
    rw [hj, hb]
    rw [hb] at hget
    exact validate_fail_blank_agent kvs items hget hlen hstr hemp
  · intro agents hpass
    exact validate_pass_no_blank req.isJson req.body agents hpass

theorem C9_witness :
    api_managers ["key1"] ⟨some "key1", true, Json.obj [("agents", Json.arr [Json.str "   "])]⟩
      DbOutcome.dbErr = badRequest "Agent names cannot be empty" :=
  (C9_whitespace_only_agents_rejected ["key1"]
    ⟨some "key1", true, Json.obj [("agents", Json.arr [Json.str "   "])]⟩
    DbOutcome.dbErr rfl).1 [("agents", Json.arr [Json.str "   "])] [Json.str "   "]
    rfl rfl rfl (by decide) rfl rfl

/-- C10: rows whose manager is NULL or the empty string are skipped when
collecting managers, so an agent whose rows all carry falsy managers is
mapped to null, never to an empty string. -/
theorem C10_falsy_managers_ignored (api_keys : List String) (req : Request)
    (agents : List String) (rows : List Row) (a : String)
    (hauth : require_api_key api_keys req.apiKey = none)
    (hval : validate_agents 300 false req.isJson req.body = VResult.pass agents)
    (ha : a ∈ agents)
    (hfalsy : ∀ r ∈ rows, r.agent = a → r.manager = none ∨ r.manager = some "") :
    ∃ m, respManagers (api_managers api_keys req (DbOutcome.ok rows)) = some m ∧
      dictGet m a = some Json.null := by
  rw [api_managers_pass api_keys req (DbOutcome.ok rows) agents hauth hval,
    respManagers_get_managers]
  refine ⟨finalManagers agents rows, rfl, ?_⟩
  refine finalManagers_get_null agents rows a ha ?_
  intro r hr hra m hm
  rcases hfalsy r hr hra with h | h
  · rw [hm] at h
    cases h
  · rw [hm] at h
    cases h
    rfl

theorem C10_witness :
    ∃ m, respManagers (api_managers ["key1"]
        ⟨some "key1", true, Json.obj [("agents", Json.arr [Json.str "alice"])]⟩
        (DbOutcome.ok [⟨"alice", none⟩, ⟨"alice", some ""⟩])) = some m ∧
      dictGet m "alice" = some Json.null :=
  C10_falsy_managers_ignored ["key1"]
    ⟨some "key1", true, Json.obj [("agents", Json.arr [Json.str "alice"])]⟩
    ["alice"] [⟨"alice", none⟩, ⟨"alice", some ""⟩] "alice" rfl rfl
    (List.mem_cons_self "alice" []) (by decide)
